import Mathlib

/-!
# Verification of the affirmLy backend core

A shallow embedding, over `List Char` strings and `ℚ` timestamps, of the core of
`src/backend/app/main.py`: the sliding-window rate limiter
(`rate_limit_middleware`), the request validators (`name_is_alpha_friendly`,
`feeling_is_descriptive`), the request-level field pipeline (pydantic
`str_strip_whitespace` + length bounds + field validators) and the
`create_affirmation` error paths, together with theorems settling the frozen
claims about them.
-/

namespace AffirmLy

/-! ## Python string primitives

Character classification is modelled on the ASCII range, where it agrees with
Python's `str.isalpha` / `str.isalnum` / `str.lower` / whitespace notions; all
string constants in the program are ASCII apart from the emoji examples, which
are neither alphanumeric nor whitespace in either reading. -/

/-- Python whitespace (`str.strip` / `str.split` with no arguments), ASCII part:
space, tab, newline, carriage return, vertical tab, form feed. -/
def pyIsSpace (c : Char) : Bool :=
  c ∈ [' ', '\t', '\n', '\r', '\x0b', '\x0c']

/-- Python `str.isalpha`, modelled on the ASCII range. -/
def pyIsAlpha (c : Char) : Bool := c.isAlpha

/-- Python `str.isalnum`, modelled on the ASCII range. -/
def pyIsAlnum (c : Char) : Bool := c.isAlphanum

/-- Python `str.strip()`: remove whitespace from both ends. -/
def pyStrip (l : List Char) : List Char :=
  (l.dropWhile pyIsSpace).rdropWhile pyIsSpace

/-- Python `str.split()` with no arguments: split on whitespace runs and drop
the empty pieces. -/
def pySplit (l : List Char) : List (List Char) :=
  (l.splitOnP pyIsSpace).filter (fun w => !w.isEmpty)

/-- Python `str.lower()`, modelled on the ASCII range. -/
def pyLower (l : List Char) : List Char := l.map Char.toLower

theorem dropWhile_eq_self_of_head {α : Type*} {p : α → Bool} {l : List α}
    (h : ∀ a, l.head? = some a → p a = false) : l.dropWhile p = l := by
  cases l with
  | nil => rfl
  | cons a t =>
    have := h a (by simp)
    simp [List.dropWhile_cons, this]

theorem pyStrip_idem (l : List Char) : pyStrip (pyStrip l) = pyStrip l := by
  unfold pyStrip
  set d := l.dropWhile pyIsSpace with hd
  have hdwm : (d.rdropWhile pyIsSpace).dropWhile pyIsSpace = d.rdropWhile pyIsSpace := by
    apply dropWhile_eq_self_of_head
    intro a ha
    obtain ⟨t, ht⟩ := List.rdropWhile_prefix (l := d) (p := pyIsSpace)
    cases hm : d.rdropWhile pyIsSpace with
    | nil => rw [hm] at ha; simp at ha
    | cons b m =>
      rw [hm] at ha ht
      simp only [List.head?_cons, Option.some.injEq] at ha
      rw [← ha]
      have hdd : d.dropWhile pyIsSpace = d := by
        rw [hd]; exact List.dropWhile_idempotent _ _
      rw [← ht] at hdd
      simp only [List.cons_append, List.dropWhile_cons] at hdd
      by_cases hpa : pyIsSpace b = true
      · rw [if_pos hpa] at hdd
        have hsub : ((m ++ t).dropWhile pyIsSpace).length ≤ (m ++ t).length :=
          (List.dropWhile_sublist _).length_le
        rw [hdd] at hsub
        simp at hsub
      · exact Bool.not_eq_true _ ▸ hpa
  rw [hdwm, List.rdropWhile_idempotent]

theorem pyStrip_sublist (l : List Char) : (pyStrip l).Sublist l := by
  have hp := List.rdropWhile_prefix pyIsSpace (l.dropWhile pyIsSpace)
  exact hp.sublist.trans (List.dropWhile_sublist _)

theorem mem_of_mem_pyStrip {c : Char} {l : List Char} (h : c ∈ pyStrip l) : c ∈ l :=
  (pyStrip_sublist l).mem h

/-! ## Rate limiter (`rate_limit_middleware`, main.py lines 88-110)

The per-client state is the deque of request timestamps (oldest first);
timestamps are modelled as rationals.  `admitStep` is the guarded
read-prune-check-append cycle executed for each POST to `/api/affirmation`:
it pops entries from the front while they are `< now - window`, then denies
(HTTP 429) if `max_requests` or more entries remain, otherwise records `now`
and lets the request through. -/

/-- One admitStep cycle of the rate limiter.  `W` is `RATE_LIMIT_WINDOW_SECONDS`,
`N` is `RATE_LIMIT_MAX_REQUESTS`.  Returns `true` (Allowed) or `false`
(Denied) together with the updated bucket. -/
def admitStep (W : ℚ) (N : ℕ) (bucket : List ℚ) (now : ℚ) : Bool × List ℚ :=
  let cutoff := now - W
  let pruned := bucket.dropWhile (fun t => decide (t < cutoff))
  if N ≤ pruned.length then (false, pruned)
  else (true, pruned ++ [now])

/-- A sequence of admitStep cycles for one client, returning the outcomes in order
together with the final bucket. -/
def admitTrace (W : ℚ) (N : ℕ) (bucket : List ℚ) : List ℚ → List Bool × List ℚ
  | [] => ([], bucket)
  | t :: ts =>
    let step := admitStep W N bucket t
    let rest := admitTrace W N step.2 ts
    (step.1 :: rest.1, rest.2)

/-- On a sorted bucket, popping from the front while the head is below the
cutoff removes exactly the entries below the cutoff. -/
theorem dropWhile_lt_eq_filter {l : List ℚ} (c : ℚ) (hs : l.Sorted (· ≤ ·)) :
    l.dropWhile (fun t => decide (t < c)) = l.filter (fun t => decide (c ≤ t)) := by
  induction l with
  | nil => rfl
  | cons a t ih =>
    have hat := List.sorted_cons.mp hs
    by_cases ha : a < c
    · simp only [List.dropWhile_cons, List.filter_cons, decide_eq_true ha,
        if_true, decide_eq_false (not_le.mpr ha), Bool.false_eq_true, if_false]
      exact ih hat.2
    · have hca : c ≤ a := not_lt.mp ha
      simp only [List.dropWhile_cons, decide_eq_false ha, Bool.false_eq_true,
        if_false, List.filter_cons, decide_eq_true hca, if_true]
      congr 1
      refine (List.filter_eq_self.mpr ?_).symm
      intro x hx
      exact decide_eq_true (hca.trans (hat.1 x hx))

theorem dropWhile_eq_self_of_forall {α : Type*} {p : α → Bool} {l : List α}
    (h : ∀ a ∈ l, p a = false) : l.dropWhile p = l :=
  dropWhile_eq_self_of_head (fun a ha => h a (List.mem_of_mem_head? ha))

/-- Claim C1: on a (chronologically) sorted bucket, one admitStep cycle first
discards exactly the entries strictly older than `now - W`; if at least `N`
entries remain it denies without appending `now`, otherwise it appends `now`
and allows. -/
theorem admit_prunes_then_checks (W : ℚ) (N : ℕ) (bucket : List ℚ) (now : ℚ)
    (hs : bucket.Sorted (· ≤ ·)) :
    admitStep W N bucket now =
      (if N ≤ (bucket.filter (fun t => decide (now - W ≤ t))).length
       then (false, bucket.filter (fun t => decide (now - W ≤ t)))
       else (true, bucket.filter (fun t => decide (now - W ≤ t)) ++ [now])) := by
  simp only [admitStep]
  rw [dropWhile_lt_eq_filter (now - W) hs]

/-- Witness for `admit_prunes_then_checks` at `W = 10`, `N = 1`,
`bucket = [0, 5]`, `now = 12`: the entry `0` is pruned, `5` remains, and the
request is denied. -/
theorem admit_prunes_then_checks_witness :
    admitStep 10 1 [(0 : ℚ), 5] 12 =
      (if 1 ≤ ([(0 : ℚ), 5].filter (fun t => decide ((12 : ℚ) - 10 ≤ t))).length
       then (false, [(0 : ℚ), 5].filter (fun t => decide ((12 : ℚ) - 10 ≤ t)))
       else (true, [(0 : ℚ), 5].filter (fun t => decide ((12 : ℚ) - 10 ≤ t)) ++ [12])) :=
  admit_prunes_then_checks 10 1 [(0 : ℚ), 5] 12 (by norm_num [List.sorted_cons])

/-- Claim C5: after an admitStep cycle on a sorted bucket (with a nonnegative
window), every remaining timestamp is within `W` of the `now` used for the
prune, and the bucket length stays at most `N` whenever it was at most `N`
before. -/
theorem admit_invariant (W : ℚ) (N : ℕ) (bucket : List ℚ) (now : ℚ)
    (hs : bucket.Sorted (· ≤ ·)) (hW : 0 ≤ W) :
    (∀ t ∈ (admitStep W N bucket now).2, now - W ≤ t) ∧
      (bucket.length ≤ N → (admitStep W N bucket now).2.length ≤ N) := by
  simp only [admitStep]
  rw [dropWhile_lt_eq_filter (now - W) hs]
  set pruned := bucket.filter (fun t => decide (now - W ≤ t)) with hpr
  have hmem : ∀ t ∈ pruned, now - W ≤ t := by
    intro t ht
    have := List.of_mem_filter ht
    exact of_decide_eq_true this
  by_cases hfull : N ≤ pruned.length
  · rw [if_pos hfull]
    refine ⟨hmem, fun hlen => ?_⟩
    exact le_trans (List.length_filter_le _ _) hlen
  · rw [if_neg hfull]
    constructor
    · intro t ht
      rcases List.mem_append.mp ht with h | h
      · exact hmem t h
      · rcases List.mem_singleton.mp h with rfl
        linarith
    · intro _
      have : pruned.length < N := lt_of_not_le hfull
      simp only [List.length_append, List.length_singleton]
      omega

/-- Witness for `admit_invariant` at `W = 10`, `N = 2`, `bucket = [0, 5]`,
`now = 12`. -/
theorem admit_invariant_witness :
    (∀ t ∈ (admitStep 10 2 [(0 : ℚ), 5] 12).2, (12 : ℚ) - 10 ≤ t) ∧
      ([(0 : ℚ), 5].length ≤ 2 → (admitStep 10 2 [(0 : ℚ), 5] 12).2.length ≤ 2) :=
  admit_invariant 10 2 [(0 : ℚ), 5] 12 (by norm_num [List.sorted_cons]) (by norm_num)

theorem admitTrace_all_allowed (W : ℚ) (N : ℕ) :
    ∀ (ts bucket : List ℚ),
      bucket.length + ts.length ≤ N →
      (∀ x ∈ bucket, ∀ t ∈ ts, t - W ≤ x) →
      (∀ s ∈ ts, ∀ u ∈ ts, s - W ≤ u) →
      admitTrace W N bucket ts = (List.replicate ts.length true, bucket ++ ts)
  | [], bucket, _, _, _ => by simp [admitTrace]
  | t :: ts, bucket, hlen, hpast, hspan => by
    have hstep : admitStep W N bucket t = (true, bucket ++ [t]) := by
      simp only [admitStep]
      rw [dropWhile_eq_self_of_forall (fun x hx => ?_)]
      · have : bucket.length < N := by
          simp only [List.length_cons] at hlen; omega
        rw [if_neg (by omega)]
      · have := hpast x hx t (List.mem_cons_self _ _)
        simpa using not_lt.mpr (by linarith)
    have ih := admitTrace_all_allowed W N ts (bucket ++ [t])
      (by simp only [List.length_append, List.length_singleton, List.length_nil,
            List.length_cons] at hlen ⊢; omega)
      (by
        intro x hx s hs
        rcases List.mem_append.mp hx with h | h
        · exact hpast x h s (List.mem_cons_of_mem _ hs)
        · rcases List.mem_singleton.mp h with rfl
          exact hspan s (List.mem_cons_of_mem _ hs) x (List.mem_cons_self _ _))
      (fun s hs u hu => hspan s (List.mem_cons_of_mem _ hs) u (List.mem_cons_of_mem _ hu))
    simp only [admitTrace, hstep, ih, List.length_cons, List.replicate_succ,
      List.append_assoc, List.singleton_append]

/-- Claim C2 (amended): with all `N` admitStep times inside the window
`[tn - W, tn]`, sorted chronologically, a fresh client gets `N` Allowed
outcomes, and the next admitStep at `tn` is Denied; and once every recorded
timestamp is strictly older than `now - W` (the client stayed silent for
strictly more than `W`), the next admitStep is Allowed and leaves a bucket of
length exactly 1. -/
theorem rate_limit_window_behavior (W : ℚ) (N : ℕ) (ts : List ℚ) (tn : ℚ)
    (hlen : ts.length = N)
    (hwin : ∀ x ∈ ts, tn - W ≤ x ∧ x ≤ tn) :
    (admitTrace W N [] ts).1 = List.replicate N true ∧
      (admitStep W N (admitTrace W N [] ts).2 tn).1 = false ∧
      (∀ (bucket : List ℚ) (now : ℚ), (∀ t ∈ bucket, t < now - W) → 1 ≤ N →
        admitStep W N bucket now = (true, [now])) := by
  have htr := admitTrace_all_allowed W N ts []
    (by simp [hlen])
    (by intro x hx; simp at hx)
    (by
      intro s hs u hu
      have h1 := (hwin s hs).2
      have h2 := (hwin u hu).1
      linarith)
  refine ⟨by rw [htr, hlen], ?_, ?_⟩
  · rw [htr]
    simp only [admitStep, List.nil_append]
    rw [dropWhile_eq_self_of_forall (fun x hx => by
      simpa using not_lt.mpr (hwin x hx).1)]
    rw [if_pos (by omega)]
  · intro bucket now hold hN
    simp only [admitStep]
    rw [List.dropWhile_eq_nil_iff.mpr (fun x hx => decide_eq_true (hold x hx))]
    simp only [List.length_nil, List.nil_append]
    rw [if_neg (by omega)]

/-- Witness for `rate_limit_window_behavior` at `W = 1`, `N = 2`,
admitStep times `[0, 0]`, next admitStep at `tn = 1`; the reset clause is
instantiated at `bucket = [0, 0]`, `now = 3`. -/
theorem rate_limit_window_behavior_witness :
    (admitTrace 1 2 [] [(0 : ℚ), 0]).1 = List.replicate 2 true ∧
      (admitStep 1 2 (admitTrace 1 2 [] [(0 : ℚ), 0]).2 1).1 = false ∧
      admitStep 1 2 [(0 : ℚ), 0] 3 = (true, [3]) := by
  have h := rate_limit_window_behavior 1 2 [(0 : ℚ), 0] 1 rfl (by norm_num)
  exact ⟨h.1, h.2.1, h.2.2 [(0 : ℚ), 0] 3 (by norm_num) (by norm_num)⟩

/-- Counterexample to claim C2 as stated: with `W = 1` and `N = 1`, a client
allowed at time `0` then silent for exactly `W = 1` seconds is Denied at time
`1`, because the prune keeps entries equal to `now - W` (only strictly older
ones are discarded); the claim promises an Allowed outcome after any gap of
at least `W`. -/
theorem rate_limit_reset_boundary_counterexample :
    admitStep 1 1 [] 0 = (true, [0]) ∧
      (1 : ℚ) - 0 ≥ 1 ∧
      (admitStep 1 1 [(0 : ℚ)] 1).1 = false := by
  refine ⟨by simp [admitStep], by norm_num, ?_⟩
  norm_num [admitStep, List.dropWhile_cons]

/-! ## Input validator (`AffirmationRequest`, main.py lines 113-152)

`AffirmationRequest` is declared with `str_strip_whitespace=True`, name bounds
`1..60`, feeling bounds `2..280`, and two `@field_validator`s which run after
pydantic has stripped the value and checked the length bounds. -/

/-- The apostrophe character. -/
def apos : Char := '\''

/-- The characters kept by the name-cleaning rule:
`ch.isalnum() or ch in " -'"` (main.py line 124). -/
def isNameChar (c : Char) : Bool :=
  pyIsAlnum c || c ∈ [' ', '-', apos]

def nameInvalidMsg : List Char := "Name must contain valid characters.".toList

/-- `name_is_alpha_friendly` (main.py lines 121-127): keep only the allowed
characters; fail if nothing but whitespace remains; otherwise return the
cleaned, trimmed name. -/
def name_is_alpha_friendly (value : List Char) : Except (List Char) (List Char) :=
  let cleaned := value.filter isNameChar
  if (pyStrip cleaned).isEmpty then Except.error nameInvalidMsg
  else Except.ok (pyStrip cleaned)

/-- `EMOJI_PATTERN` (main.py lines 62-74): membership of a code point in the
eight inclusive ranges of the regex character class. -/
def isEmojiChar (c : Char) : Bool :=
  decide ((0x1F300 ≤ c.toNat ∧ c.toNat ≤ 0x1F6FF) ∨
    (0x1F700 ≤ c.toNat ∧ c.toNat ≤ 0x1F77F) ∨
    (0x1F780 ≤ c.toNat ∧ c.toNat ≤ 0x1F7FF) ∨
    (0x1F800 ≤ c.toNat ∧ c.toNat ≤ 0x1F8FF) ∨
    (0x1F900 ≤ c.toNat ∧ c.toNat ≤ 0x1F9FF) ∨
    (0x1FA00 ≤ c.toNat ∧ c.toNat ≤ 0x1FAFF) ∨
    (0x2700 ≤ c.toNat ∧ c.toNat ≤ 0x27BF) ∨
    (0x2600 ≤ c.toNat ∧ c.toNat ≤ 0x26FF))

/-- `EMOJI_PATTERN.search(text)` is truthy iff some character matches. -/
def emojiSearch (l : List Char) : Bool := l.any isEmojiChar

/-- `FEELING_SUGGESTIONS` (main.py lines 55-60). -/
def FEELING_SUGGESTIONS : List (List Char × List Char) :=
  [("anx".toList, "anxious".toList), ("strs".toList, "stressed".toList),
   ("dep".toList, "depressed".toList), ("conf".toList, "confused".toList)]

def feelingEmptyMsg : List Char := "Please describe how you are feeling.".toList

def emojiMsg : List Char :=
  "Please use descriptive text instead of emoji for your feeling.".toList

/-- The f-string message of the shorthand rule (main.py line 142). -/
def suggestionMsg (suggestion : List Char) : List Char :=
  "Did you mean ".toList ++ [apos] ++ suggestion ++ [apos] ++
    "? Please use a full descriptive word.".toList

def alphaMsg : List Char := "Please use valid words to describe your feeling.".toList

def singleWordMsg : List Char :=
  "Please be more descriptive, for example: ".toList ++ [apos] ++
    "anxious about my presentation".toList ++ [apos] ++ ".".toList

/-- The body of `feeling_is_descriptive` after `feeling = value.strip()`
(main.py lines 133-152): the ordered rule chain on the stripped feeling. -/
def feelingChecks (feeling : List Char) : Except (List Char) (List Char) :=
  if feeling.isEmpty then Except.error feelingEmptyMsg
  else if emojiSearch feeling then Except.error emojiMsg
  else match FEELING_SUGGESTIONS.lookup (pyLower feeling) with
    | some suggestion => Except.error (suggestionMsg suggestion)
    | none =>
      if (feeling.filter pyIsAlpha).length < 3 then Except.error alphaMsg
      else match (pySplit feeling).filter (fun w => w.any pyIsAlpha) with
        | [w] => if w.length < 5 then Except.error singleWordMsg else Except.ok feeling
        | _ => Except.ok feeling

/-- `feeling_is_descriptive` (main.py lines 129-152). -/
def feeling_is_descriptive (value : List Char) : Except (List Char) (List Char) :=
  feelingChecks (pyStrip value)

/-- Whether the single-word rule (main.py lines 148-150) fires. -/
def singleShortWord (feeling : List Char) : Bool :=
  match (pySplit feeling).filter (fun w => w.any pyIsAlpha) with
  | [w] => decide (w.length < 5)
  | _ => false

/-- Spec-side, from the spec's words: the four feeling rules in their fixed
order (emoji, shorthand, letter density, single-word length), each as a
fails-now flag paired with its error message. -/
def feelingRuleChain (feeling : List Char) : List (Bool × List Char) :=
  [(emojiSearch feeling, emojiMsg),
   ((FEELING_SUGGESTIONS.lookup (pyLower feeling)).isSome,
     suggestionMsg ((FEELING_SUGGESTIONS.lookup (pyLower feeling)).getD [])),
   (decide ((feeling.filter pyIsAlpha).length < 3), alphaMsg),
   (singleShortWord feeling, singleWordMsg)]

/-- Spec-side: first failure wins. -/
def firstFailure : List (Bool × List Char) → Option (List Char)
  | [] => none
  | (b, m) :: rest => if b then some m else firstFailure rest

/-- How the request pipeline treats the `feeling` field: distinguishes the
generic payload-shape (length-bound) rejection from a rule-chain rejection
carrying one of the validator's messages. -/
inductive FeelingError where
  | lengthBound
  | rule (msg : List Char)

/-- Request-level processing of the `feeling` field: pydantic first applies
`str_strip_whitespace`, then checks `min_length=2` / `max_length=280` on the
stripped value, and only then runs `feeling_is_descriptive` (main.py
lines 113-119 and 129-152). -/
def validateFeelingField (raw : List Char) : Except FeelingError (List Char) :=
  let v := pyStrip raw
  if v.length < 2 ∨ 280 < v.length then Except.error FeelingError.lengthBound
  else match feeling_is_descriptive v with
    | Except.error m => Except.error (FeelingError.rule m)
    | Except.ok f => Except.ok f

/-- Claim C3: for every feeling within the length bounds (so in particular
nonempty after stripping), the validator agrees with the spec's ordered rule
chain, first failure winning; and the five boundary examples behave as
stated. -/
theorem feeling_first_failure_wins (value : List Char)
    (hlen : 2 ≤ (pyStrip value).length) :
    (feeling_is_descriptive value =
      match firstFailure (feelingRuleChain (pyStrip value)) with
      | some m => Except.error m
      | none => Except.ok (pyStrip value)) ∧
      feeling_is_descriptive "anx".toList = Except.error (suggestionMsg "anxious".toList) ∧
      feeling_is_descriptive "😟".toList = Except.error emojiMsg ∧
      feeling_is_descriptive "ok".toList = Except.error alphaMsg ∧
      feeling_is_descriptive "sad".toList = Except.error singleWordMsg ∧
      feeling_is_descriptive "nervous before a big presentation".toList =
        Except.ok "nervous before a big presentation".toList := by
  refine ⟨?_, rfl, rfl, rfl, rfl, rfl⟩
  set f := pyStrip value with hf
  have hne : f.isEmpty = false := by
    cases hc : f with
    | nil => rw [hc] at hlen; simp at hlen
    | cons a t => rfl
  simp only [feeling_is_descriptive, ← hf, feelingChecks, feelingRuleChain,
    firstFailure, hne, Bool.false_eq_true, if_false]
  by_cases h1 : emojiSearch f = true
  · simp [h1]
  · simp only [Bool.not_eq_true] at h1
    simp only [h1, Bool.false_eq_true, if_false]
    cases hlk : FEELING_SUGGESTIONS.lookup (pyLower f) with
    | some s => simp [hlk]
    | none =>
      simp only [hlk, Option.isSome_none, Bool.false_eq_true, if_false]
      by_cases h3 : (f.filter pyIsAlpha).length < 3
      · simp [h3]
      · simp only [h3, decide_False, Bool.false_eq_true, if_false, singleShortWord]
        obtain ⟨ws, hws⟩ : ∃ ws, (pySplit f).filter (fun w => w.any pyIsAlpha) = ws :=
          ⟨_, rfl⟩
        simp only [hws]
        cases ws with
        | nil => simp
        | cons w rest =>
          cases rest with
          | nil =>
            by_cases h4 : w.length < 5
            · simp [h4]
            · simp [h4]
          | cons w2 rest2 => simp

/-- Witness for `feeling_first_failure_wins` at the passing boundary example,
whose stripped length is at least 2. -/
theorem feeling_first_failure_wins_witness :
    2 ≤ (pyStrip "nervous before a big presentation".toList).length ∧
      (feeling_is_descriptive "nervous before a big presentation".toList =
        match firstFailure (feelingRuleChain
            (pyStrip "nervous before a big presentation".toList)) with
        | some m => Except.error m
        | none => Except.ok (pyStrip "nervous before a big presentation".toList)) :=
  ⟨by decide,
   (feeling_first_failure_wins "nervous before a big presentation".toList (by decide)).1⟩

/-- Counterexample to claim C4 as stated: the request whose raw `feeling` is
three spaces (empty after trimming) is rejected by the pydantic length bound
with the generic payload-shape error, not with the rule-chain message
"Please describe how you are feeling." — `str_strip_whitespace` strips the
value before `min_length=2` is checked, so the rule chain never runs. -/
theorem feeling_empty_message_counterexample :
    validateFeelingField "   ".toList = Except.error FeelingError.lengthBound ∧
      validateFeelingField "   ".toList ≠
        Except.error (FeelingError.rule feelingEmptyMsg) := by
  refine ⟨rfl, ?_⟩
  intro h
  rw [show validateFeelingField "   ".toList = Except.error FeelingError.lengthBound
    from rfl] at h
  injection h with h2
  exact FeelingError.noConfusion h2

/-- Claim C4 (amended): a request whose `feeling` is empty after trimming
always fails with the generic payload-shape (length-bound) error — the
rule-chain message "Please describe how you are feeling." is unreachable at
the request level, produced by the rule chain only when it is invoked
directly on an empty string. -/
theorem feeling_empty_request_error (raw : List Char) (h : pyStrip raw = []) :
    validateFeelingField raw = Except.error FeelingError.lengthBound ∧
      feelingChecks [] = Except.error feelingEmptyMsg := by
  refine ⟨?_, rfl⟩
  simp [validateFeelingField, h]

/-- Witness for `feeling_empty_request_error` at a raw feeling of one tab. -/
theorem feeling_empty_request_error_witness :
    pyStrip "\t".toList = [] ∧
      (validateFeelingField "\t".toList = Except.error FeelingError.lengthBound ∧
        feelingChecks [] = Except.error feelingEmptyMsg) :=
  ⟨by decide, feeling_empty_request_error "\t".toList (by decide)⟩

/-- Claim C6: the cleaning rule keeps an in-order selection of exactly the
allowed characters (alphanumeric, space, hyphen, apostrophe) — it is a
sublist of the input, its characters are all allowed, and it retains every
occurrence of each allowed character — and the validator fails with
"Name must contain valid characters." exactly when the cleaned-and-trimmed
result is empty, returning the cleaned, trimmed string otherwise. -/
theorem name_cleaning (value : List Char) :
    ((value.filter isNameChar).Sublist value) ∧
      (∀ c ∈ value.filter isNameChar, isNameChar c = true) ∧
      (∀ c, isNameChar c = true →
        (value.filter isNameChar).count c = value.count c) ∧
      (name_is_alpha_friendly value = Except.error nameInvalidMsg ↔
        pyStrip (value.filter isNameChar) = []) ∧
      (∀ res, name_is_alpha_friendly value = Except.ok res →
        res = pyStrip (value.filter isNameChar)) := by
  refine ⟨List.filter_sublist _, fun c hc => List.of_mem_filter hc, ?_, ?_, ?_⟩
  · intro c hc
    rw [List.count_filter]
    simp [hc]
  · simp only [name_is_alpha_friendly]
    by_cases he : (pyStrip (value.filter isNameChar)).isEmpty = true
    · simp only [he, if_true, true_iff]
      exact List.isEmpty_iff.mp he
    · have hne : pyStrip (value.filter isNameChar) ≠ [] := by
        intro h0
        rw [h0] at he
        exact he rfl
      simp only [he, Bool.false_eq_true, if_false]
      constructor
      · intro h
        cases h
      · intro h
        exact absurd h hne
  · intro res hres
    simp only [name_is_alpha_friendly] at hres
    by_cases he : (pyStrip (value.filter isNameChar)).isEmpty = true
    · rw [if_pos he] at hres
      cases hres
    · rw [if_neg he] at hres
      injection hres with h2
      exact h2.symm

/-- Witness for `name_cleaning` at `value = "Al3x!?"` and `c = '3'`: the
cleaned name keeps every occurrence of the allowed character `'3'`. -/
theorem name_cleaning_witness :
    (("Al3x!?".toList.filter isNameChar).Sublist "Al3x!?".toList) ∧
      ("Al3x!?".toList.filter isNameChar).count '3' = "Al3x!?".toList.count '3' :=
  ⟨(name_cleaning "Al3x!?".toList).1,
   (name_cleaning "Al3x!?".toList).2.2.1 '3' (by decide)⟩

theorem feelingChecks_ok {f r : List Char} (h : feelingChecks f = Except.ok r) :
    r = f := by
  simp only [feelingChecks] at h
  split at h
  · cases h
  · split at h
    · cases h
    · split at h
      · cases h
      · split at h
        · cases h
        · split at h
          · split at h
            · cases h
            · injection h with h2
              exact h2.symm
          · injection h with h2
            exact h2.symm

theorem name_ok {v r : List Char} (h : name_is_alpha_friendly v = Except.ok r) :
    r = pyStrip (v.filter isNameChar) ∧ pyStrip (v.filter isNameChar) ≠ [] := by
  simp only [name_is_alpha_friendly] at h
  split at h
  · cases h
  · next he =>
    injection h with h2
    refine ⟨h2.symm, fun h0 => ?_⟩
    rw [h0] at he
    exact he rfl

/-- Claim C7: the validators are idempotent — an already-clean nonempty name
(only allowed characters, no surrounding whitespace) passes unchanged, and
the cleaned fields of any request that passed validation pass again
unchanged. -/
theorem validator_idempotent :
    (∀ value : List Char, value ≠ [] → (∀ c ∈ value, isNameChar c = true) →
        pyStrip value = value → name_is_alpha_friendly value = Except.ok value) ∧
      (∀ value res : List Char, name_is_alpha_friendly value = Except.ok res →
        name_is_alpha_friendly res = Except.ok res) ∧
      (∀ value res : List Char, feeling_is_descriptive value = Except.ok res →
        feeling_is_descriptive res = Except.ok res) := by
  have hclean : ∀ v : List Char, v ≠ [] → (∀ c ∈ v, isNameChar c = true) →
      pyStrip v = v → name_is_alpha_friendly v = Except.ok v := by
    intro v hne hall hstrip
    have hfil : v.filter isNameChar = v := List.filter_eq_self.mpr hall
    have hemp : v.isEmpty = false := by
      cases v with
      | nil => exact absurd rfl hne
      | cons a t => rfl
    simp only [name_is_alpha_friendly, hfil, hstrip, hemp, Bool.false_eq_true,
      if_false]
  refine ⟨hclean, ?_, ?_⟩
  · intro value res h
    obtain ⟨hres, hne⟩ := name_ok h
    apply hclean
    · rw [hres]
      exact fun h0 => hne h0
    · intro c hc
      rw [hres] at hc
      exact List.of_mem_filter (mem_of_mem_pyStrip hc)
    · rw [hres]
      exact pyStrip_idem _
  · intro value res h
    simp only [feeling_is_descriptive] at h ⊢
    have hres : res = pyStrip value := feelingChecks_ok h
    rw [hres] at h ⊢
    rw [pyStrip_idem]
    exact h

/-- Witness for `validator_idempotent`: the clean name "Alex" passes
unchanged; the cleaned outputs for the name " Mary-Jane !" and the feeling
" calm and rested " pass again unchanged. -/
theorem validator_idempotent_witness :
    name_is_alpha_friendly "Alex".toList = Except.ok "Alex".toList ∧
      name_is_alpha_friendly "Mary-Jane".toList = Except.ok "Mary-Jane".toList ∧
      feeling_is_descriptive "calm and rested".toList =
        Except.ok "calm and rested".toList :=
  ⟨validator_idempotent.1 "Alex".toList (by decide) (by decide) (by decide),
   validator_idempotent.2.1 " Mary-Jane !".toList "Mary-Jane".toList rfl,
   validator_idempotent.2.2 " calm and rested ".toList "calm and rested".toList rfl⟩

/-- Claim C10: the emoji rule matches exactly the eight fixed inclusive code
point ranges of `EMOJI_PATTERN`; the regional-indicator block
U+1F1E6..U+1F1FF lies outside all of them, as does U+2B50, so a feeling made
of such a pictograph plus ordinary text passes the emoji rule, while U+1F61F
is matched. -/
theorem emoji_range_boundaries (c : Char) :
    (isEmojiChar c = true ↔
      ((0x1F300 ≤ c.toNat ∧ c.toNat ≤ 0x1F6FF) ∨
        (0x1F700 ≤ c.toNat ∧ c.toNat ≤ 0x1F77F) ∨
        (0x1F780 ≤ c.toNat ∧ c.toNat ≤ 0x1F7FF) ∨
        (0x1F800 ≤ c.toNat ∧ c.toNat ≤ 0x1F8FF) ∨
        (0x1F900 ≤ c.toNat ∧ c.toNat ≤ 0x1F9FF) ∨
        (0x1FA00 ≤ c.toNat ∧ c.toNat ≤ 0x1FAFF) ∨
        (0x2700 ≤ c.toNat ∧ c.toNat ≤ 0x27BF) ∨
        (0x2600 ≤ c.toNat ∧ c.toNat ≤ 0x26FF))) ∧
      (0x1F1E6 ≤ c.toNat → c.toNat ≤ 0x1F1FF → isEmojiChar c = false) ∧
      isEmojiChar '⭐' = false ∧
      emojiSearch "⭐ overwhelmed and tired".toList = false ∧
      emojiSearch "🇦 overwhelmed".toList = false ∧
      emojiSearch "😟".toList = true := by
  refine ⟨by simp [isEmojiChar], ?_, rfl, rfl, rfl, rfl⟩
  intro h1 h2
  simp only [isEmojiChar, decide_eq_false_iff_not]
  omega

/-- Witness for `emoji_range_boundaries` at the regional-indicator letter A
(U+1F1E6), used by flag emoji. -/
theorem emoji_range_boundaries_witness :
    0x1F1E6 ≤ ('🇦' : Char).toNat ∧ ('🇦' : Char).toNat ≤ 0x1F1FF ∧
      isEmojiChar '🇦' = false :=
  ⟨by decide, by decide, (emoji_range_boundaries '🇦').2.1 (by decide) (by decide)⟩

/-! ## Affirmation endpoint error paths (`create_affirmation`, main.py
lines 188-216, and `http_exception_handler`, lines 244-250)

The payload has already passed validation when the handler body runs; what is
left of the route is the interaction with the external collaborator:
`openai_client` is `None` when `OPENAI_API_KEY` is unset, the call may raise,
and a returned response carries `output_text` which may be `None` or empty. -/

/-- An `HTTPException` with its status code and detail string. -/
structure HttpErr where
  status : ℕ
  detail : List Char

/-- What the external collaborator call does: raise, or return a response
whose `output_text` may be `None`. -/
inductive CollabOutcome where
  | raises
  | returns (output_text : Option (List Char))

def keyMissingMsg : List Char := "Server is missing OPENAI_API_KEY.".toList

def emptyRespMsg : List Char := "Empty response from language model.".toList

def failedMsg : List Char := "Failed to generate affirmation.".toList

/-- `create_affirmation` after payload validation: fail 500 when the client
is unconfigured; otherwise call the collaborator, translate a raised error
to 502 "Failed to generate affirmation.", reject a blank
`(response.output_text or "").strip()` with 502 "Empty response from language
model.", and otherwise return the text with null bytes removed and
re-stripped. -/
def create_affirmation (configured : Bool) (outcome : CollabOutcome) :
    Except HttpErr (List Char) :=
  if !configured then Except.error ⟨500, keyMissingMsg⟩
  else match outcome with
    | CollabOutcome.raises => Except.error ⟨502, failedMsg⟩
    | CollabOutcome.returns o =>
      let text := pyStrip (o.getD [])
      if text.isEmpty then Except.error ⟨502, emptyRespMsg⟩
      else Except.ok (pyStrip (text.filter (fun c => c != '\x00')))

/-- The JSON object `{"error": ..., "message": ...}`, as ordered key-value
pairs. -/
def jsonError (kind msg : List Char) : List (List Char × List Char) :=
  [("error".toList, kind), ("message".toList, msg)]

/-- An HTTP response: status code and JSON body. -/
structure ApiResponse where
  status : ℕ
  body : List (List Char × List Char)

/-- The route's response: `http_exception_handler` turns an `HTTPException`
into its status code with body `{"error": "HttpError", "message": detail}`;
a success returns 200 with the affirmation. -/
def respond : Except HttpErr (List Char) → ApiResponse
  | Except.error e => ⟨e.status, jsonError "HttpError".toList e.detail⟩
  | Except.ok t => ⟨200, [("affirmation".toList, t)]⟩

/-- Claim C8: with the collaborator unconfigured every valid request gets
status 500 with body `{"error": "HttpError", "message": "Server is missing
OPENAI_API_KEY."}`, and a collaborator response whose text is empty (after
the `or ""` default and stripping) gets status 502 with body
`{"error": "HttpError", "message": "Empty response from language model."}`. -/
theorem collaborator_error_responses :
    (∀ outcome : CollabOutcome, respond (create_affirmation false outcome) =
      ⟨500, jsonError "HttpError".toList keyMissingMsg⟩) ∧
      (∀ o : Option (List Char), pyStrip (o.getD []) = [] →
        respond (create_affirmation true (CollabOutcome.returns o)) =
          ⟨502, jsonError "HttpError".toList emptyRespMsg⟩) := by
  constructor
  · intro outcome
    rfl
  · intro o h
    simp [create_affirmation, respond, h]

/-- Witness for `collaborator_error_responses`: an unconfigured collaborator
that would have raised, and a configured collaborator returning a blank
output text. -/
theorem collaborator_error_responses_witness :
    respond (create_affirmation false CollabOutcome.raises) =
      ⟨500, jsonError "HttpError".toList keyMissingMsg⟩ ∧
      respond (create_affirmation true (CollabOutcome.returns (some " ".toList))) =
        ⟨502, jsonError "HttpError".toList emptyRespMsg⟩ :=
  ⟨collaborator_error_responses.1 CollabOutcome.raises,
   collaborator_error_responses.2 (some " ".toList) (by decide)⟩

end AffirmLy
